import Mathlib

/-!
Verification model of `src/services/geminiService.ts`.

The file embeds, as executable Lean definitions, the two pieces of the program
that carry all of the branching logic:

* the request builder of `editImage` (geminiService.ts lines 47-101), and
* the response extractor plus error normalization (lines 114-117, 125-243).

JavaScript strings are modelled as lists of characters, optional/absent JSON
fields as `Option`, thrown exceptions as `Except`, and JS truthiness of string
fields as presence of a non-empty string.
-/

namespace GeminiService

/-- Strings are modelled as lists of characters. -/
abbrev Str := List Char

/-- The character class of the data-URI regex payload group at line 138:
letters, digits, plus, slash, equals. -/
def isBase64Char (c : Char) : Bool :=
  c.isAlpha || c.isDigit || c == '+' || c == '/' || c == '='

/-- The character class of the raw-base64 pattern at line 142:
letters, digits, plus, slash (no equals). -/
def isBase64Core (c : Char) : Bool :=
  c.isAlpha || c.isDigit || c == '+' || c == '/'

/-- The complement class of a semicolon, used for the subtype group of the
data-URI regex at line 138. -/
def notSemi (c : Char) : Bool := c != ';'

/-- Strip a literal pattern from the front of a character list; `none` when the
list does not start with the pattern. -/
def dropLit : Str → Str → Option Str
  | [], l => some l
  | _ :: _, [] => none
  | p :: ps, c :: cs => if c = p then dropLit ps cs else none

/-- One anchored attempt of the regex at geminiService.ts line 138, namely a
data-image URI with a non-empty semicolon-free subtype and a non-empty base64
payload; returns the whole matched substring. Because the subtype class
excludes the semicolon and is followed by a literal semicolon, greedy matching
forces the split at the first semicolon, so the attempt is deterministic. -/
def matchDataUriAt (l : Str) : Option Str :=
  (dropLit "data:image/".data l).bind fun rest =>
    let sub := rest.takeWhile notSemi
    if sub.isEmpty then none
    else
      (dropLit ";base64,".data (rest.dropWhile notSemi)).bind fun rest2 =>
        let payload := rest2.takeWhile isBase64Char
        if payload.isEmpty then none
        else some ("data:image/".data ++ sub ++ ";base64,".data ++ payload)

/-- Leftmost match of the data-URI regex: attempt the anchored match at every
start position from the left, as `String.prototype.match` does with a
non-global regex (line 138). -/
def findDataUri : Str → Option Str
  | [] => none
  | c :: cs =>
    match matchDataUriAt (c :: cs) with
    | some u => some u
    | none => findDataUri cs

/-- `String.prototype.trim` (line 143), modelled with `Char.isWhitespace`. -/
def trimList (l : Str) : Str :=
  ((l.dropWhile Char.isWhitespace).reverse.dropWhile Char.isWhitespace).reverse

/-- The anchored raw-base64 test of line 142: the whole string is at least 100
characters from the base64 core class followed by at most two equals signs. -/
def base64PatternTest (l : Str) : Bool :=
  decide (100 ≤ (l.takeWhile isBase64Core).length) &&
    decide ((l.drop (l.takeWhile isBase64Core).length).length ≤ 2) &&
    (l.drop (l.takeWhile isBase64Core).length).all (fun c => c == '=')

/-- A part of the outgoing message content array built at lines 50-86: an
image_url part carrying a URI, or a text part. -/
inductive MessagePart where
  | image (url : Str)
  | text (t : Str)
deriving DecidableEq

/-- The data URI placed in an outgoing image part (lines 56, 65, 76). -/
def dataUri (mimeType b64 : Str) : Str :=
  "data:".data ++ mimeType ++ ";base64,".data ++ b64

/-- The part of the masked-edit template before the quoted prompt (line 68). -/
def maskedPromptPre : Str :=
  "Apply the following instruction only to the masked area of the image: \"".data

/-- The part of the masked-edit template after the quoted prompt (line 68). -/
def maskedPromptPost : Str := "\". Preserve the unmasked area.".data

/-- The rewritten prompt used when a mask is present (line 68). -/
def maskedPrompt (prompt : Str) : Str :=
  maskedPromptPre ++ prompt ++ maskedPromptPost

/-- The fixed suffix appended to every outgoing text part (line 82). -/
def imageOutputSuffix : Str := " Please generate and return an image as output.".data

/-- The optional secondary image argument of `editImage`. -/
structure SecondaryImage where
  base64 : Str
  mimeType : Str
deriving DecidableEq

/-- Lines 50-86: the ordered message content array sent upstream: the primary
image, the mask image when present (with the prompt rewritten through the
masked-edit template), the secondary image when present, then one text part
with the fixed image-output suffix appended. -/
def buildMessageContent (base64ImageData mimeType prompt : Str)
    (maskBase64 : Option Str) (secondaryImage : Option SecondaryImage) :
    List MessagePart :=
  let fullPrompt := match maskBase64 with
    | some _ => maskedPrompt prompt
    | none => prompt
  [MessagePart.image (dataUri mimeType base64ImageData)]
    ++ (match maskBase64 with
        | some mask => [MessagePart.image (dataUri "image/png".data mask)]
        | none => [])
    ++ (match secondaryImage with
        | some sec => [MessagePart.image (dataUri sec.mimeType sec.base64)]
        | none => [])
    ++ [MessagePart.text (fullPrompt ++ imageOutputSuffix)]

/-- An entry of `message.images` or of an array-valued `message.content`: its
type tag and the nested `image_url.url` field, `none` when the tag or the
nested object/field is missing. -/
structure ContentPart where
  tag : Option Str
  imageUrlUrl : Option Str
deriving DecidableEq

/-- An entry of `message.attachments`: type tag, content_type field, url. -/
structure Attachment where
  tag : Option Str
  contentType : Option Str
  url : Option Str
deriving DecidableEq

/-- `message.content`: absent (or null), a string, or an array of parts. -/
inductive MsgContent where
  | absent
  | str (s : Str)
  | arr (parts : List ContentPart)
deriving DecidableEq

/-- The first choice's message of the parsed response body: content plus the
alternate shape fields probed at lines 160-205 (`images`, `attachments` and
the direct `image_url` field). -/
structure Message where
  content : MsgContent
  images : Option (List ContentPart)
  attachments : Option (List Attachment)
  imageUrlField : Option Str
deriving DecidableEq

/-- JS truthiness of an optional string field: present and non-empty. -/
def optTruthy : Option Str → Bool
  | some s => !s.isEmpty
  | none => false

/-- The result record of `editImage` (../types GeneratedContent, line 125). -/
structure GeneratedContent where
  imageUrl : Option Str
  text : Option Str
deriving DecidableEq

/-- The exceptions the extractor can throw: the TypeError raised at line 138
when `content` is an array (arrays have no `match` method), and the
no-image-returned error of lines 208-225 carrying the captured text. -/
inductive ExtractError where
  | typeError
  | noImage (text : Option Str)
deriving DecidableEq

/-- Lines 167-173 and 197-203: scan an array of parts for the first entry whose
type tag is image_url and whose nested url is truthy. -/
def partsImage : List ContentPart → Option Str
  | [] => none
  | p :: ps =>
    if p.tag = some "image_url".data ∧ optTruthy p.imageUrlUrl then p.imageUrlUrl
    else partsImage ps

/-- Lines 179-181: the attachment filter passed to `find`: type tag is image,
or the content_type field starts with image-slash. -/
def attMatches (att : Attachment) : Bool :=
  decide (att.tag = some "image".data) ||
    (match att.contentType with
     | some ct => "image/".data.isPrefixOf ct
     | none => false)

/-- Lines 177-186: take the first attachment passing the filter; produce its
url only when that url is truthy. -/
def attachmentsImage (atts : List Attachment) : Option Str :=
  match atts.find? attMatches with
  | some att => if optTruthy att.url then att.url else none
  | none => none

/-- Lines 160-205: the alternate-shape scan, entered only when no image was
found yet: `images` array, then `attachments`, then the direct `image_url`
field, then an array-valued `content`. -/
def altImage (m : Message) : Option Str :=
  let r1 := match m.images with
    | some imgs => partsImage imgs
    | none => none
  match r1 with
  | some u => some u
  | none =>
    let r2 := match m.attachments with
      | some atts => attachmentsImage atts
      | none => none
    match r2 with
    | some u => some u
    | none =>
      if optTruthy m.imageUrlField then m.imageUrlField
      else
        match m.content with
        | .arr parts => partsImage parts
        | _ => none

/-- Lines 130-157: the content-based strategies. A falsy content (absent or
the empty string) skips the block. A string is scanned for a data URI
(Strategy A, line 138), then tested as raw base64 (Strategy B, lines 140-147);
if neither applies the string is kept as the text field (line 155). An
array-valued content is truthy and reaches line 138, where calling `match` on
an array throws a TypeError. Produces (imageUrl, text). -/
def stage1 : MsgContent → Except ExtractError (Option Str × Option Str)
  | .absent => .ok (none, none)
  | .arr _ => .error .typeError
  | .str s =>
    if s.isEmpty then .ok (none, none)
    else
      match findDataUri s with
      | some u => .ok (some u, none)
      | none =>
        if base64PatternTest (trimList s) then
          .ok (some ("data:image/png;base64,".data ++ trimList s), none)
        else .ok (none, some s)

/-- Lines 125-228: the whole extraction pass over the first choice's message:
content strategies, then the alternate-shape scan when no image was found,
then either the success record (which keeps whatever text was captured) or the
no-image error carrying the captured text. -/
def extractResult (msg : Option Message) : Except ExtractError GeneratedContent :=
  match msg with
  | none => .error (.noImage none)
  | some m =>
    match stage1 m.content with
    | .error e => .error e
    | .ok (img1, text) =>
      match (match img1 with | some u => some u | none => altImage m) with
      | some u => .ok ⟨some u, text⟩
      | none => .error (.noImage text)

/-- The head of the no-image error message (line 209). -/
def extractionFailureHead : Str :=
  "Gemini 2.5 Flash Image Preview 模型没有返回图像。\n\n".data

/-- The fixed troubleshooting block of the no-image error (lines 215-223). -/
def extractionFailureTail : Str :=
  ("可能的原因：\n• 提示词可能被安全过滤器阻止\n• 输入图像格式或内容不符合要求\n" ++
   "• API 响应格式发生变化\n• 模型暂时不可用\n\n建议尝试：\n" ++
   "• 修改提示词，避免敏感内容\n• 使用不同的输入图像\n• 稍后重试").data

/-- Lines 208-225: the no-image error message, embedding the captured text when
that text is truthy (line 211). -/
def extractionFailureMessage (text : Option Str) : Str :=
  extractionFailureHead ++
    (if optTruthy text then "模型响应：".data ++ text.getD [] ++ "\n\n".data else []) ++
    extractionFailureTail

/-- The TypeError message produced by line 138 on array content, as V8 renders
calling a missing method. -/
def typeErrorMessage : Str := "responseContent.match is not a function".data

/-- The message carried by each extractor exception. -/
def extractErrorMessage : ExtractError → Str
  | .typeError => typeErrorMessage
  | .noImage t => extractionFailureMessage t

/-- `String.prototype.includes` (line 236). -/
def containsSubstr : Str → Str → Bool
  | [], sub => sub.isEmpty
  | c :: tl, sub => sub.isPrefixOf (c :: tl) || containsSubstr tl sub

/-- The generic connectivity message substituted at line 237. -/
def networkErrorMessage : Str :=
  "Network error occurred. Please check your internet connection and try again.".data

/-- Lines 232-240: the catch block's treatment of an Error: any Error whose
message contains the substring fetch is replaced by the generic connectivity
message; every other Error is rethrown with its message unchanged. -/
def normalizeErrorMessage (msg : Str) : Str :=
  if containsSubstr msg "fetch".data then networkErrorMessage else msg

/-- Lines 114-117: the message of the error thrown on a non-ok HTTP status:
the parsed error body's message field when truthy, otherwise derived from the
status code and status text. -/
def httpErrorMessage (bodyMsg : Option Str) (status : Nat) (statusText : Str) : Str :=
  if optTruthy bodyMsg then bodyMsg.getD []
  else "HTTP ".data ++ (Nat.repr status).data ++ ": ".data ++ statusText

/-- The transport's behaviour on the one upstream call: the fetch promise
rejects with a fetch-class Error carrying some message, or the response has a
non-ok status, or it parses to a body whose first choice's message is given. -/
inductive UpstreamOutcome where
  | fetchFailure (errMessage : Str)
  | httpError (bodyMsg : Option Str) (status : Nat) (statusText : Str)
  | success (firstChoiceMessage : Option Message)
deriving DecidableEq

/-- `editImage` (lines 39-244) once the transport outcome is fixed: every error
raised inside the try block - the fetch rejection, the HTTP-status error and
the extractor's own exceptions - funnels through the catch block at lines
230-243 and has its message normalized there. -/
def editImage (outcome : UpstreamOutcome) : Except Str GeneratedContent :=
  match outcome with
  | .fetchFailure m => .error (normalizeErrorMessage m)
  | .httpError body st stx => .error (normalizeErrorMessage (httpErrorMessage body st stx))
  | .success msg =>
    match extractResult msg with
    | .ok r => .ok r
    | .error e => .error (normalizeErrorMessage (extractErrorMessage e))

/-! ### Helper lemmas about the regex model -/

theorem dropLit_self_append (pre rest : Str) : dropLit pre (pre ++ rest) = some rest := by
  induction pre with
  | nil => rfl
  | cons c cs ih => simp [dropLit, ih]

theorem dropLit_eq_some {pre : Str} :
    ∀ {l rest : Str}, dropLit pre l = some rest → l = pre ++ rest := by
  induction pre with
  | nil =>
    intro l rest h
    simp only [dropLit, Option.some.injEq] at h
    simp [h]
  | cons c cs ih =>
    intro l rest h
    cases l with
    | nil => simp [dropLit] at h
    | cons d ds =>
      simp only [dropLit] at h
      split at h
      · rename_i hd
        subst hd
        simp [ih h]
      · cases h

theorem takeWhile_append_of_all {p : Char → Bool} {xs : Str} (ys : Str)
    (h : ∀ x ∈ xs, p x = true) : (xs ++ ys).takeWhile p = xs ++ ys.takeWhile p := by
  induction xs with
  | nil => rfl
  | cons c cs ih =>
    have hc : p c = true := h c (by simp)
    simp [List.takeWhile_cons, hc, ih (fun x hx => h x (by simp [hx]))]

theorem dropWhile_append_of_all {p : Char → Bool} {xs : Str} (ys : Str)
    (h : ∀ x ∈ xs, p x = true) : (xs ++ ys).dropWhile p = ys.dropWhile p := by
  induction xs with
  | nil => rfl
  | cons c cs ih =>
    have hc : p c = true := h c (by simp)
    simp [List.dropWhile_cons, hc, ih (fun x hx => h x (by simp [hx]))]

theorem takeWhile_eq_self_of_all {p : Char → Bool} {xs : Str}
    (h : ∀ x ∈ xs, p x = true) : xs.takeWhile p = xs := by
  have := takeWhile_append_of_all [] h
  simpa using this

/-- A successful anchored match on a string decomposed around a well-formed
data URI returns the URI extended by the greedy base64 tail of what follows. -/
theorem matchDataUriAt_decomp (post : Str) {sub pay : Str}
    (hsub : sub ≠ []) (hsemi : ∀ c ∈ sub, notSemi c = true)
    (hpay : pay ≠ []) (h64 : ∀ c ∈ pay, isBase64Char c = true) :
    matchDataUriAt ("data:image/".data ++ (sub ++ (";base64,".data ++ (pay ++ post))))
      = some ("data:image/".data ++ sub ++ ";base64,".data
          ++ (pay ++ post.takeWhile isBase64Char)) := by
  have hsemi0 : notSemi ';' = false := by decide
  have hb0 : (";base64,".data : Str) = ';' :: "base64,".data := by decide
  have htake : (sub ++ (";base64,".data ++ (pay ++ post))).takeWhile notSemi = sub := by
    rw [takeWhile_append_of_all _ hsemi, hb0]
    simp [List.takeWhile_cons, hsemi0]
  have hdrop : (sub ++ (";base64,".data ++ (pay ++ post))).dropWhile notSemi
      = ";base64,".data ++ (pay ++ post) := by
    rw [dropWhile_append_of_all _ hsemi, hb0]
    simp [List.dropWhile_cons, hsemi0]
  have hpayload : (pay ++ post).takeWhile isBase64Char
      = pay ++ post.takeWhile isBase64Char := takeWhile_append_of_all _ h64
  have h1 : sub.isEmpty = false := by
    cases sub with
    | nil => exact absurd rfl hsub
    | cons _ _ => rfl
  have h2 : (pay ++ post.takeWhile isBase64Char).isEmpty = false := by
    cases pay with
    | nil => exact absurd rfl hpay
    | cons _ _ => rfl
  unfold matchDataUriAt
  rw [dropLit_self_append, Option.some_bind]
  simp only [htake, hdrop, hpayload, h1, h2, dropLit_self_append, Option.some_bind,
    Bool.false_eq_true, if_false]

theorem matchDataUriAt_nil : matchDataUriAt ([] : Str) = none := by decide

/-- Any successful anchored match returns a well-formed data-image URI that is
a prefix of the scanned suffix. -/
theorem matchDataUriAt_eq_some {l u : Str} (h : matchDataUriAt l = some u) :
    ∃ sub pay rest,
      u = "data:image/".data ++ sub ++ ";base64,".data ++ pay ∧
      sub ≠ [] ∧ (∀ c ∈ sub, notSemi c = true) ∧
      pay ≠ [] ∧ (∀ c ∈ pay, isBase64Char c = true) ∧
      l = u ++ rest := by
  unfold matchDataUriAt at h
  cases h1 : dropLit "data:image/".data l with
  | none => rw [h1] at h; cases h
  | some rest =>
    rw [h1, Option.some_bind] at h
    by_cases he : (rest.takeWhile notSemi).isEmpty
    · rw [if_pos he] at h; cases h
    · rw [if_neg he] at h
      cases h2 : dropLit ";base64,".data (rest.dropWhile notSemi) with
      | none => rw [h2] at h; cases h
      | some rest2 =>
        rw [h2, Option.some_bind] at h
        by_cases he2 : (rest2.takeWhile isBase64Char).isEmpty
        · rw [if_pos he2] at h; cases h
        · rw [if_neg he2] at h
          set S := rest.takeWhile notSemi with hSdef
          set DR := rest.dropWhile notSemi with hDRdef
          set P := rest2.takeWhile isBase64Char with hPdef
          set R := rest2.dropWhile isBase64Char with hRdef
          have hu : "data:image/".data ++ S ++ ";base64,".data ++ P = u := Option.some.inj h
          have e1 : l = "data:image/".data ++ rest := dropLit_eq_some h1
          have e2 : DR = ";base64,".data ++ rest2 := dropLit_eq_some h2
          have e4 : rest = S ++ DR := by
            rw [hSdef, hDRdef]; exact (List.takeWhile_append_dropWhile _ _).symm
          have e3 : rest2 = P ++ R := by
            rw [hPdef, hRdef]; exact (List.takeWhile_append_dropWhile _ _).symm
          refine ⟨S, P, R, hu.symm, ?_, ?_, ?_, ?_, ?_⟩
          · intro hnil; exact he (by rw [hnil]; rfl)
          · intro c hc; exact List.mem_takeWhile_imp (hSdef ▸ hc)
          · intro hnil; exact he2 (by rw [hnil]; rfl)
          · intro c hc; exact List.mem_takeWhile_imp (hPdef ▸ hc)
          · rw [← hu, e1]
            calc "data:image/".data ++ rest
                = "data:image/".data ++ (S ++ DR) := by rw [e4]
              _ = "data:image/".data ++ (S ++ (";base64,".data ++ rest2)) := by rw [e2]
              _ = "data:image/".data ++ (S ++ (";base64,".data ++ (P ++ R))) := by rw [e3]
              _ = "data:image/".data ++ S ++ ";base64,".data ++ P ++ R := by
                  simp [List.append_assoc]

/-- A successful anchored match at the head of the list is what the leftmost
scan returns. -/
theorem findDataUri_of_matchAt {l u : Str} (h : matchDataUriAt l = some u) :
    findDataUri l = some u := by
  cases l with
  | nil => rw [matchDataUriAt_nil] at h; cases h
  | cons c cs => simp [findDataUri, h]

/-- If some suffix carries an anchored match, the leftmost scan succeeds. -/
theorem findDataUri_append_isSome (a : Str) {b u : Str} (h : matchDataUriAt b = some u) :
    ∃ v, findDataUri (a ++ b) = some v := by
  induction a with
  | nil => exact ⟨u, by simpa using findDataUri_of_matchAt h⟩
  | cons c cs ih =>
    obtain ⟨v, hv⟩ := ih
    cases hm : matchDataUriAt (c :: (cs ++ b)) with
    | some w => exact ⟨w, by simp [List.cons_append, findDataUri, hm]⟩
    | none => exact ⟨v, by simp [findDataUri, hm, hv]⟩

/-- Whatever the leftmost scan returns is a well-formed data-image URI
occurring as a substring of the scanned string. -/
theorem findDataUri_eq_some {l u : Str} (h : findDataUri l = some u) :
    ∃ sub pay a rest,
      u = "data:image/".data ++ sub ++ ";base64,".data ++ pay ∧
      sub ≠ [] ∧ (∀ c ∈ sub, notSemi c = true) ∧
      pay ≠ [] ∧ (∀ c ∈ pay, isBase64Char c = true) ∧
      l = a ++ u ++ rest := by
  induction l with
  | nil => simp [findDataUri] at h
  | cons c cs ih =>
    cases hm : matchDataUriAt (c :: cs) with
    | some w =>
      have hw : w = u := by
        have := h
        rw [findDataUri, hm] at this
        exact Option.some.inj this
      obtain ⟨sub, pay, rest, h1, h2, h3, h4, h5, h6⟩ := matchDataUriAt_eq_some hm
      exact ⟨sub, pay, [], rest, hw ▸ h1, h2, h3, h4, h5, by
        rw [List.nil_append]; exact hw ▸ h6⟩
    | none =>
      have h' : findDataUri cs = some u := by
        have := h
        rw [findDataUri, hm] at this
        exact this
      obtain ⟨sub, pay, a, rest, h1, h2, h3, h4, h5, h6⟩ := ih h'
      exact ⟨sub, pay, c :: a, rest, h1, h2, h3, h4, h5, by simp [h6]⟩

/-! ### Reduction lemmas for the extractor -/

/-- Array-valued content reaches line 138 and throws: arrays have no match
method. -/
theorem extractResult_arr (m : Message) {parts : List ContentPart}
    (hc : m.content = .arr parts) : extractResult (some m) = .error .typeError := by
  simp [extractResult, hc, stage1]

/-- Absent content is falsy: the content block is skipped, no text is captured,
and the alternate-shape scan decides the outcome. -/
theorem extractResult_absent (m : Message) (hc : m.content = .absent) :
    extractResult (some m) =
      match altImage m with
      | some u => .ok ⟨some u, none⟩
      | none => .error (.noImage none) := by
  cases ha : altImage m <;> simp [extractResult, hc, stage1, ha]

/-- Empty-string content is falsy as well: same skip as absent content. -/
theorem extractResult_strEmpty (m : Message) (hc : m.content = .str []) :
    extractResult (some m) =
      match altImage m with
      | some u => .ok ⟨some u, none⟩
      | none => .error (.noImage none) := by
  cases ha : altImage m <;> simp [extractResult, hc, stage1, ha]

/-- Strategy A hit: the whole match becomes the image, no text is kept and the
alternate shapes are never consulted. -/
theorem extractResult_strA (m : Message) {s u : Str} (hc : m.content = .str s)
    (hne : s ≠ []) (hA : findDataUri s = some u) :
    extractResult (some m) = .ok ⟨some u, none⟩ := by
  cases s with
  | nil => exact absurd rfl hne
  | cons c cs => simp [extractResult, hc, stage1, hA]

/-- Strategy B hit: the trimmed content is prefixed with the PNG data-URI
header, no text is kept and the alternate shapes are never consulted. -/
theorem extractResult_strB (m : Message) {s : Str} (hc : m.content = .str s)
    (hne : s ≠ []) (hA : findDataUri s = none)
    (hB : base64PatternTest (trimList s) = true) :
    extractResult (some m) =
      .ok ⟨some ("data:image/png;base64,".data ++ trimList s), none⟩ := by
  cases s with
  | nil => exact absurd rfl hne
  | cons c cs => simp [extractResult, hc, stage1, hA, hB]

/-- Neither content strategy hit on a non-empty string: the string is kept as
the text field (line 155) and the alternate-shape scan decides the outcome;
the captured text survives into the success record. -/
theorem extractResult_strText (m : Message) {s : Str} (hc : m.content = .str s)
    (hne : s ≠ []) (hA : findDataUri s = none)
    (hB : base64PatternTest (trimList s) = false) :
    extractResult (some m) =
      match altImage m with
      | some u => .ok ⟨some u, some s⟩
      | none => .error (.noImage (some s)) := by
  cases s with
  | nil => exact absurd rfl hne
  | cons c cs => cases ha : altImage m <;> simp [extractResult, stage1, hc, hA, hB, ha]

/-! ### Claim theorems -/

/-- C3: whenever the first choice's message content is a string containing a
substring of the form data-colon-image-slash subtype semicolon base64 comma
payload (subtype non-empty and semicolon-free, payload non-empty over the
base64 alphabet with equals), extraction succeeds, the image field is the
entire (leftmost) matched data-URI substring of the content, the success
result carries no text, and no later strategy is consulted: the outcome is
independent of the alternate shape fields. -/
theorem strategyA_extracts_whole_match (s pre sub pay post : Str)
    (imgs : Option (List ContentPart)) (atts : Option (List Attachment)) (iuf : Option Str)
    (hs : s = pre ++ ("data:image/".data ++ (sub ++ (";base64,".data ++ (pay ++ post)))))
    (hsub : sub ≠ []) (hsemi : ∀ c ∈ sub, c ≠ ';')
    (hpay : pay ≠ []) (h64 : ∀ c ∈ pay, isBase64Char c = true) :
    ∃ u a r sub2 pay2,
      findDataUri s = some u ∧
      u = "data:image/".data ++ sub2 ++ ";base64,".data ++ pay2 ∧
      sub2 ≠ [] ∧ pay2 ≠ [] ∧ (∀ c ∈ pay2, isBase64Char c = true) ∧
      s = a ++ u ++ r ∧
      extractResult (some ⟨.str s, imgs, atts, iuf⟩) = .ok ⟨some u, none⟩ := by
  have hsemi' : ∀ c ∈ sub, notSemi c = true := fun c hc => by
    simp [notSemi, hsemi c hc]
  have hmatch := matchDataUriAt_decomp post hsub hsemi' hpay h64
  obtain ⟨v, hv⟩ := findDataUri_append_isSome pre hmatch
  rw [← hs] at hv
  obtain ⟨sub2, pay2, a, r, h1, h2, _, h4, h5, h6⟩ := findDataUri_eq_some hv
  have hne : s ≠ [] := by
    rw [hs]
    intro h0
    rw [List.append_eq_nil, List.append_eq_nil] at h0
    exact (by decide : ("data:image/".data : Str) ≠ []) h0.2.1
  exact ⟨v, a, r, sub2, pay2, hv, h1, h2, h4, h5, h6,
    extractResult_strA _ rfl hne hv⟩

/-- C3 witness: the spec's own example content yields the png data URI. -/
theorem strategyA_extracts_whole_match_witness :
    ∃ u a r sub2 pay2,
      findDataUri "here: data:image/png;base64,QUJD text".data = some u ∧
      u = "data:image/".data ++ sub2 ++ ";base64,".data ++ pay2 ∧
      sub2 ≠ [] ∧ pay2 ≠ [] ∧ (∀ c ∈ pay2, isBase64Char c = true) ∧
      "here: data:image/png;base64,QUJD text".data = a ++ u ++ r ∧
      extractResult (some ⟨.str "here: data:image/png;base64,QUJD text".data,
        none, none, none⟩) = .ok ⟨some u, none⟩ :=
  strategyA_extracts_whole_match "here: data:image/png;base64,QUJD text".data
    "here: ".data "png".data "QUJD".data " text".data none none none
    (by decide) (by decide) (by decide) (by decide) (by decide)

/-- C7: a string content with no data-URI match whose trimmed form is at least
100 base64-core characters followed by at most two equals signs succeeds via
Strategy B: the image is the PNG data-URI header prepended to the trimmed
content, with no text and independently of the alternate shape fields. -/
theorem strategyB_synthesizes_png_uri (s a e : Str)
    (imgs : Option (List ContentPart)) (atts : Option (List Attachment)) (iuf : Option Str)
    (hA : findDataUri s = none)
    (hsplit : trimList s = a ++ e)
    (ha : ∀ c ∈ a, isBase64Core c = true) (hlen : 100 ≤ a.length)
    (he : ∀ c ∈ e, c = '=') (helen : e.length ≤ 2) :
    extractResult (some ⟨.str s, imgs, atts, iuf⟩) =
      .ok ⟨some ("data:image/png;base64,".data ++ trimList s), none⟩ := by
  have hne : s ≠ [] := by
    intro h0
    rw [h0] at hsplit
    have h00 : ([] : Str) = a ++ e := by simpa [trimList] using hsplit
    have ha0 : a = [] := (List.append_eq_nil.mp h00.symm).1
    rw [ha0] at hlen
    simp at hlen
  have heq0 : isBase64Core '=' = false := by decide
  have ht : (a ++ e).takeWhile isBase64Core = a := by
    rw [takeWhile_append_of_all _ ha]
    cases e with
    | nil => simp
    | cons c cs =>
      have hc : c = '=' := he c (by simp)
      subst hc
      simp [List.takeWhile_cons, heq0]
  have hB : base64PatternTest (trimList s) = true := by
    rw [hsplit]
    unfold base64PatternTest
    rw [ht, List.drop_left]
    rw [Bool.and_eq_true, Bool.and_eq_true]
    refine ⟨⟨decide_eq_true hlen, decide_eq_true helen⟩, ?_⟩
    rw [List.all_eq_true]
    intro c hc
    simp [he c hc]
  exact extractResult_strB _ rfl hne hA hB

/-- C7 witness: 120 capital letters pass the raw-base64 test. -/
theorem strategyB_synthesizes_png_uri_witness :
    extractResult (some ⟨.str (List.replicate 120 'A'), none, none, none⟩) =
      .ok ⟨some ("data:image/png;base64,".data ++ trimList (List.replicate 120 'A')),
        none⟩ :=
  strategyB_synthesizes_png_uri (List.replicate 120 'A') (List.replicate 120 'A') []
    none none none (by decide) (by decide) (by decide) (by decide) (by decide) (by decide)

/-- C4: round-trip: the request built from a valid primary image (mime type of
the shape image-slash subtype with a semicolon-free non-empty subtype, and a
non-empty base64 payload) starts with an image part carrying the primary data
URI, and extracting from a synthetic response whose message content echoes
exactly that data URI reproduces the identical URI through Strategy A, with
no re-encoding or truncation and independently of the alternate fields. -/
theorem roundtrip_primary_data_uri (b sub p : Str) (mask : Option Str)
    (sec : Option SecondaryImage) (imgs : Option (List ContentPart))
    (atts : Option (List Attachment)) (iuf : Option Str)
    (hsub : sub ≠ []) (hsemi : ∀ c ∈ sub, c ≠ ';')
    (hb : b ≠ []) (hb64 : ∀ c ∈ b, isBase64Char c = true) :
    (buildMessageContent b ("image/".data ++ sub) p mask sec).head? =
      some (MessagePart.image (dataUri ("image/".data ++ sub) b)) ∧
    extractResult (some ⟨.str (dataUri ("image/".data ++ sub) b), imgs, atts, iuf⟩) =
      .ok ⟨some (dataUri ("image/".data ++ sub) b), none⟩ := by
  have hsemi' : ∀ c ∈ sub, notSemi c = true := fun c hc => by
    simp [notSemi, hsemi c hc]
  have h0 : ("data:".data : Str) ++ "image/".data = "data:image/".data := by decide
  have hd : dataUri ("image/".data ++ sub) b
      = "data:image/".data ++ (sub ++ (";base64,".data ++ (b ++ []))) := by
    unfold dataUri
    calc "data:".data ++ ("image/".data ++ sub) ++ ";base64,".data ++ b
        = ("data:".data ++ "image/".data) ++ sub ++ ";base64,".data ++ b := by
          simp [List.append_assoc]
      _ = "data:image/".data ++ sub ++ ";base64,".data ++ b := by rw [h0]
      _ = "data:image/".data ++ (sub ++ (";base64,".data ++ (b ++ []))) := by
          simp [List.append_assoc]
  constructor
  · simp [buildMessageContent]
  · have hmatch := matchDataUriAt_decomp [] hsub hsemi' hb hb64
    rw [← hd] at hmatch
    have hval : "data:image/".data ++ sub ++ ";base64,".data
        ++ (b ++ List.takeWhile isBase64Char []) = dataUri ("image/".data ++ sub) b := by
      rw [hd]
      simp [List.append_assoc]
    have hfind : findDataUri (dataUri ("image/".data ++ sub) b)
        = some (dataUri ("image/".data ++ sub) b) := by
      have hh := findDataUri_of_matchAt hmatch
      rw [hval] at hh
      exact hh
    have hne : dataUri ("image/".data ++ sub) b ≠ [] := by
      rw [hd]
      intro hnil
      rw [List.append_eq_nil] at hnil
      exact (by decide : ("data:image/".data : Str) ≠ []) hnil.1
    exact extractResult_strA _ rfl hne hfind

/-- C4 witness: a concrete png payload round-trips. -/
theorem roundtrip_primary_data_uri_witness :
    (buildMessageContent "QUJD".data ("image/".data ++ "png".data) "p".data
        none none).head? =
      some (MessagePart.image (dataUri ("image/".data ++ "png".data) "QUJD".data)) ∧
    extractResult (some ⟨.str (dataUri ("image/".data ++ "png".data) "QUJD".data),
        none, none, none⟩) =
      .ok ⟨some (dataUri ("image/".data ++ "png".data) "QUJD".data), none⟩ :=
  roundtrip_primary_data_uri "QUJD".data "png".data "p".data none none none none none
    (by decide) (by decide) (by decide) (by decide)

/-- C5: with a mask supplied, the message is exactly primary, mask, secondary
(when supplied) image parts in that order followed by one text part; the text
is the fixed masked-edit template with the original prompt embedded as a
quoted substring (scoping the edit to the masked region and preserving the
unmasked region), never the original prompt alone. -/
theorem masked_request_shape (b mt p mk : Str) :
    (∀ sec : SecondaryImage, buildMessageContent b mt p (some mk) (some sec) =
      [MessagePart.image (dataUri mt b),
       MessagePart.image (dataUri "image/png".data mk),
       MessagePart.image (dataUri sec.mimeType sec.base64),
       MessagePart.text (maskedPrompt p ++ imageOutputSuffix)]) ∧
    buildMessageContent b mt p (some mk) none =
      [MessagePart.image (dataUri mt b),
       MessagePart.image (dataUri "image/png".data mk),
       MessagePart.text (maskedPrompt p ++ imageOutputSuffix)] ∧
    maskedPrompt p ++ imageOutputSuffix =
      "Apply the following instruction only to the masked area of the image: ".data
        ++ (('"' :: p) ++ ('"' :: (". Preserve the unmasked area.".data ++ imageOutputSuffix))) ∧
    maskedPrompt p ++ imageOutputSuffix ≠ p := by
  refine ⟨?_, ?_, ?_, ?_⟩
  · intro sec
    simp [buildMessageContent]
  · simp [buildMessageContent]
  · have h1 : maskedPromptPre =
        "Apply the following instruction only to the masked area of the image: ".data
          ++ ['"'] := by decide
    have h2 : maskedPromptPost = '"' :: ". Preserve the unmasked area.".data := by decide
    rw [maskedPrompt, h1, h2]
    simp [List.append_assoc]
  · intro h0
    have h3 : 0 < maskedPromptPre.length := by decide
    have hl := congrArg List.length h0
    simp [maskedPrompt, List.length_append] at hl
    omega

/-- C6: without a mask the single trailing text part is the caller's prompt
with the fixed suffix appended verbatim, and the suffix is appended to the
text part in the masked case as well. -/
theorem unmasked_prompt_suffix (b mt p : Str) :
    buildMessageContent b mt p none none =
      [MessagePart.image (dataUri mt b),
       MessagePart.text (p ++ " Please generate and return an image as output.".data)] ∧
    (∀ sec : SecondaryImage, buildMessageContent b mt p none (some sec) =
      [MessagePart.image (dataUri mt b),
       MessagePart.image (dataUri sec.mimeType sec.base64),
       MessagePart.text (p ++ " Please generate and return an image as output.".data)]) ∧
    (∀ (mask : Option Str) (sec : Option SecondaryImage),
      (buildMessageContent b mt p mask sec).getLast? =
        some (MessagePart.text ((match mask with
          | some _ => maskedPrompt p
          | none => p) ++ " Please generate and return an image as output.".data))) := by
  refine ⟨?_, ?_, ?_⟩
  · simp [buildMessageContent, imageOutputSuffix]
  · intro sec
    simp [buildMessageContent, imageOutputSuffix]
  · intro mask sec
    cases mask <;> cases sec <;> rfl

/-- C2 (code-bug evaluation): an array-valued content is truthy, so it reaches
line 138 where calling match on an array throws a TypeError; the content-array
branch at lines 195-204 is therefore unreachable and no image_url part of the
array is ever returned, for any array and any alternate fields. The thrown
TypeError surfaces through the catch block with its message unchanged. -/
theorem arrayContent_throws_type_error :
    (∀ (parts : List ContentPart) (imgs : Option (List ContentPart))
        (atts : Option (List Attachment)) (iuf : Option Str),
      extractResult (some ⟨.arr parts, imgs, atts, iuf⟩) = .error .typeError) ∧
    editImage (.success (some ⟨.arr [⟨some "image_url".data, some "https://x/y.png".data⟩],
        none, none, none⟩)) = .error typeErrorMessage :=
  ⟨fun _ _ _ _ => rfl, rfl⟩

/-- C1 counterexample: a string content that matches neither content strategy
is captured as text at line 155, and when the images array then supplies the
image, the returned success record carries BOTH the image and the captured
text - the text is not discarded. -/
theorem success_keeps_text_counterexample :
    extractResult (some ⟨.str "Sorry, I cannot do that.".data,
        some [⟨some "image_url".data, some "https://x/y.png".data⟩], none, none⟩) =
      .ok ⟨some "https://x/y.png".data, some "Sorry, I cannot do that.".data⟩ ∧
    (some "Sorry, I cannot do that.".data : Option Str) ≠ none :=
  ⟨rfl, by simp⟩

/-- C1 (amended): on success the image field is always populated; whenever the
image was produced by the content-string strategies (A or B) the success
record carries no text; text captured from a string content survives into the
success record only when the image came from the alternate message shapes. -/
theorem success_image_populated (m : Message) (r : GeneratedContent)
    (h : extractResult (some m) = .ok r) :
    r.imageUrl ≠ none ∧
    (∀ s u, m.content = .str s → findDataUri s = some u → r = ⟨some u, none⟩) ∧
    (∀ s, m.content = .str s → findDataUri s = none →
      base64PatternTest (trimList s) = true →
      r = ⟨some ("data:image/png;base64,".data ++ trimList s), none⟩) := by
  cases hc : m.content with
  | arr parts =>
    rw [extractResult_arr m hc] at h
    exact Except.noConfusion h
  | absent =>
    rw [extractResult_absent m hc] at h
    cases ha : altImage m with
    | none =>
      rw [ha] at h
      exact Except.noConfusion h
    | some u =>
      rw [ha] at h
      have hr : (⟨some u, none⟩ : GeneratedContent) = r := Except.ok.inj h
      refine ⟨?_, ?_, ?_⟩
      · rw [← hr]; simp
      · intro s u' hcs _
        exact MsgContent.noConfusion hcs
      · intro s hcs _ _
        exact MsgContent.noConfusion hcs
  | str s =>
    by_cases hne : s = []
    · subst hne
      rw [extractResult_strEmpty m hc] at h
      cases ha : altImage m with
      | none =>
        rw [ha] at h
        exact Except.noConfusion h
      | some u =>
        rw [ha] at h
        have hr : (⟨some u, none⟩ : GeneratedContent) = r := Except.ok.inj h
        refine ⟨?_, ?_, ?_⟩
        · rw [← hr]; simp
        · intro s' u' hcs hfind
          have hs' : s' = [] := (MsgContent.str.inj hcs).symm
          rw [hs'] at hfind
          exact Option.noConfusion hfind
        · intro s' hcs _ hB
          have hs' : s' = [] := (MsgContent.str.inj hcs).symm
          rw [hs'] at hB
          have hB0 : base64PatternTest (trimList ([] : Str)) = false := by decide
          rw [hB0] at hB
          exact Bool.noConfusion hB
    · cases hA : findDataUri s with
      | some u =>
        rw [extractResult_strA m hc hne hA] at h
        have hr : (⟨some u, none⟩ : GeneratedContent) = r := Except.ok.inj h
        refine ⟨?_, ?_, ?_⟩
        · rw [← hr]; simp
        · intro s' u' hcs hfind
          have hs' : s = s' := MsgContent.str.inj hcs
          rw [← hs', hA] at hfind
          rw [← Option.some.inj hfind]
          exact hr.symm
        · intro s' hcs hfind _
          have hs' : s = s' := MsgContent.str.inj hcs
          rw [← hs', hA] at hfind
          exact Option.noConfusion hfind
      | none =>
        cases hB : base64PatternTest (trimList s) with
        | true =>
          rw [extractResult_strB m hc hne hA hB] at h
          have hr : (⟨some ("data:image/png;base64,".data ++ trimList s), none⟩ :
              GeneratedContent) = r := Except.ok.inj h
          refine ⟨?_, ?_, ?_⟩
          · rw [← hr]; simp
          · intro s' u' hcs hfind
            have hs' : s = s' := MsgContent.str.inj hcs
            rw [← hs', hA] at hfind
            exact Option.noConfusion hfind
          · intro s' hcs _ _
            have hs' : s = s' := MsgContent.str.inj hcs
            rw [← hs']
            exact hr.symm
        | false =>
          rw [extractResult_strText m hc hne hA hB] at h
          cases ha : altImage m with
          | none =>
            rw [ha] at h
            exact Except.noConfusion h
          | some u =>
            rw [ha] at h
            have hr : (⟨some u, some s⟩ : GeneratedContent) = r := Except.ok.inj h
            refine ⟨?_, ?_, ?_⟩
            · rw [← hr]; simp
            · intro s' u' hcs hfind
              have hs' : s = s' := MsgContent.str.inj hcs
              rw [← hs', hA] at hfind
              exact Option.noConfusion hfind
            · intro s' hcs hfind hB'
              have hs' : s = s' := MsgContent.str.inj hcs
              rw [← hs', hB] at hB'
              exact Bool.noConfusion hB'

/-- C1 amended witness: a pure data-URI content succeeds with no text. -/
theorem success_image_populated_witness :
    (⟨some "data:image/png;base64,QUJD".data, none⟩ : GeneratedContent).imageUrl ≠ none :=
  (success_image_populated
    ⟨.str "data:image/png;base64,QUJD".data, none, none, none⟩
    ⟨some "data:image/png;base64,QUJD".data, none⟩ rfl).1

/-- C8 counterexample: with content absent the code still enters the
alternate-shape block at line 160 (guarded only by the message being present),
so an images array entry produces a successful extraction instead of the
claimed direct failure. -/
theorem absent_content_alt_shapes_counterexample :
    extractResult (some ⟨.absent,
        some [⟨some "image_url".data, some "https://x/y.png".data⟩], none, none⟩) =
      .ok ⟨some "https://x/y.png".data, none⟩ ∧
    (Except.ok (⟨some "https://x/y.png".data, none⟩ : GeneratedContent) :
        Except ExtractError GeneratedContent) ≠
      .error (.noImage none) :=
  ⟨rfl, fun h0 => Except.noConfusion h0⟩

/-- C8 (amended): with no primary content field, no text is captured and the
content strategies are skipped, but the alternate shape fields are still
consulted and may produce an image; only when they yield nothing does the
call fail, with the extraction-failure error carrying no text. -/
theorem absent_content_skips_text (m : Message) (hc : m.content = .absent) :
    extractResult (some m) =
      match altImage m with
      | some u => .ok ⟨some u, none⟩
      | none => .error (.noImage none) :=
  extractResult_absent m hc

/-- C8 amended witness: an entirely empty message fails with no text. -/
theorem absent_content_skips_text_witness :
    extractResult (some ⟨.absent, none, none, none⟩) = .error (.noImage none) :=
  absent_content_skips_text ⟨.absent, none, none, none⟩ rfl

/-- C9 counterexample: a non-success HTTP status whose parsed error-body
message happens to contain the substring fetch is NOT surfaced unaltered: the
catch block's substring test rewrites it to the generic connectivity
message. -/
theorem http_error_rewritten_counterexample :
    editImage (.httpError (some "Failed to fetch model data".data) 400
        "Bad Request".data) = .error networkErrorMessage ∧
    networkErrorMessage ≠ "Failed to fetch model data".data :=
  ⟨rfl, by decide⟩

/-- C9 (amended): a failure is replaced by the generic connectivity message
exactly when its message contains the substring fetch (which covers genuine
fetch-class transport errors, whose browser messages contain that word, but
also any other error whose message happens to contain it); an HTTP-status
failure's message is taken preferentially from the parsed error body's
truthy message field, otherwise derived from the status code, and it surfaces
unaltered precisely when it does not contain that substring. -/
theorem fetch_substring_normalization (body : Option Str) (st : Nat) (stx : Str) :
    editImage (.httpError body st stx) =
      .error (normalizeErrorMessage (httpErrorMessage body st stx)) ∧
    (containsSubstr (httpErrorMessage body st stx) "fetch".data = false →
      editImage (.httpError body st stx) = .error (httpErrorMessage body st stx)) ∧
    (∀ em : Str, containsSubstr em "fetch".data = true →
      editImage (.fetchFailure em) = .error networkErrorMessage) ∧
    (∀ bm : Str, bm ≠ [] → httpErrorMessage (some bm) st stx = bm) ∧
    httpErrorMessage none st stx =
      "HTTP ".data ++ (Nat.repr st).data ++ ": ".data ++ stx := by
  refine ⟨rfl, ?_, ?_, ?_, rfl⟩
  · intro h0
    simp [editImage, normalizeErrorMessage, h0]
  · intro em h0
    simp [editImage, normalizeErrorMessage, h0]
  · intro bm h0
    have hbm : bm.isEmpty = false := by
      cases bm with
      | nil => exact absurd rfl h0
      | cons _ _ => rfl
    simp [httpErrorMessage, optTruthy, hbm]

/-- C9 amended witness: a fetch-free HTTP body message surfaces unaltered and
a fetch-class failure is normalized. -/
theorem fetch_substring_normalization_witness :
    editImage (.httpError (some "Rate limit exceeded".data) 429
        "Too Many Requests".data) = .error "Rate limit exceeded".data ∧
    editImage (.fetchFailure "Failed to fetch".data) = .error networkErrorMessage :=
  ⟨(fetch_substring_normalization (some "Rate limit exceeded".data) 429
      "Too Many Requests".data).2.1 (by decide),
    (fetch_substring_normalization none 0 []).2.2.1 "Failed to fetch".data (by decide)⟩

/-- C10: the attachments sub-strategy consults only the first attachment whose
type tag is image or whose content-type starts with image-slash: when that
first match has no truthy url, the sub-strategy yields nothing - whatever
urls later attachments carry - and extraction falls through to the direct
image_url field of the message. -/
theorem attachments_first_match_only (a : Attachment) (rest : List Attachment)
    (m : Message) (hpred : attMatches a = true) (hurl : optTruthy a.url = false)
    (hc : m.content = .absent) (himgs : m.images = none)
    (hatts : m.attachments = some (a :: rest)) :
    attachmentsImage (a :: rest) = none ∧
    (∀ u : Str, m.imageUrlField = some u → u ≠ [] →
      extractResult (some m) = .ok ⟨some u, none⟩) := by
  have h1 : attachmentsImage (a :: rest) = none := by
    simp [attachmentsImage, List.find?_cons_of_pos rest hpred, hurl]
  refine ⟨h1, ?_⟩
  intro u hu hune
  have hue : u.isEmpty = false := by
    cases u with
    | nil => exact absurd rfl hune
    | cons _ _ => rfl
  have htr : optTruthy (some u) = true := by
    simp [optTruthy, hue]
  have halt : altImage m = some u := by
    simp [altImage, himgs, hatts, h1, hu, htr]
  rw [extractResult_absent m hc, halt]

/-- C10 witness: the first matching attachment lacks a url, a later one has
one, and extraction still returns the direct image_url field instead. -/
theorem attachments_first_match_only_witness :
    attachmentsImage [⟨some "image".data, none, none⟩,
      ⟨some "image".data, none, some "https://later.example/a.png".data⟩] = none ∧
    extractResult (some ⟨.absent, none,
      some [⟨some "image".data, none, none⟩,
        ⟨some "image".data, none, some "https://later.example/a.png".data⟩],
      some "https://direct.example/b.png".data⟩) =
      .ok ⟨some "https://direct.example/b.png".data, none⟩ :=
  ⟨(attachments_first_match_only ⟨some "image".data, none, none⟩
      [⟨some "image".data, none, some "https://later.example/a.png".data⟩]
      ⟨.absent, none, some [⟨some "image".data, none, none⟩,
        ⟨some "image".data, none, some "https://later.example/a.png".data⟩],
        some "https://direct.example/b.png".data⟩
      (by decide) (by decide) rfl rfl rfl).1,
    (attachments_first_match_only ⟨some "image".data, none, none⟩
      [⟨some "image".data, none, some "https://later.example/a.png".data⟩]
      ⟨.absent, none, some [⟨some "image".data, none, none⟩,
        ⟨some "image".data, none, some "https://later.example/a.png".data⟩],
        some "https://direct.example/b.png".data⟩
      (by decide) (by decide) rfl rfl rfl).2
      "https://direct.example/b.png".data rfl (by decide)⟩

end GeminiService
